import Mathlib

/-!
Shallow embedding of the TOTP generator (`src/main.go`) together with the
standard-library primitives it calls (`encoding/base32`, `crypto/hmac`,
`crypto/sha1`, `crypto/sha256`, `crypto/sha512`).  Bytes are `Nat` values
below 256, machine words are `Nat` reduced modulo `2 ^ 32` or `2 ^ 64`, and
Go runtime panics (index out of range, integer divide by zero) are modelled
as `Option`/error results.
-/

set_option maxRecDepth 100000
set_option maxHeartbeats 2000000

namespace Totp

/-- Reduce a value to a 32-bit machine word, as Go `uint32` arithmetic does. -/
def w32 (n : Nat) : Nat := n % 4294967296

/-- Reduce a value to a 64-bit machine word, as Go `uint64` arithmetic does. -/
def w64 (n : Nat) : Nat := n % 18446744073709551616

/-- Rotate a 32-bit word left by `s` bits. -/
def rotl32 (s x : Nat) : Nat := w32 ((x <<< s) ||| (x >>> (32 - s)))

/-- Rotate a 32-bit word right by `s` bits. -/
def rotr32 (s x : Nat) : Nat := w32 ((x >>> s) ||| (x <<< (32 - s)))

/-- Rotate a 64-bit word right by `s` bits. -/
def rotr64 (s x : Nat) : Nat := w64 ((x >>> s) ||| (x <<< (64 - s)))

/-- Big-endian serialisation of `n` into exactly `k` bytes. -/
def toBytesBE : Nat → Nat → List Nat
  | 0, _ => []
  | k + 1, n => toBytesBE k (n >>> 8) ++ [n &&& 0xff]

/-- Group a byte list into big-endian 32-bit words (4 bytes each). -/
def words32 : List Nat → List Nat
  | b0 :: b1 :: b2 :: b3 :: rest =>
      (b0 <<< 24 ||| b1 <<< 16 ||| b2 <<< 8 ||| b3) :: words32 rest
  | _ => []

/-- Group a byte list into big-endian 64-bit words (8 bytes each). -/
def words64 : List Nat → List Nat
  | b0 :: b1 :: b2 :: b3 :: b4 :: b5 :: b6 :: b7 :: rest =>
      (b0 <<< 56 ||| b1 <<< 48 ||| b2 <<< 40 ||| b3 <<< 32 |||
       b4 <<< 24 ||| b5 <<< 16 ||| b6 <<< 8 ||| b7) :: words64 rest
  | _ => []

/-- Split a list into consecutive chunks of `n` elements; `fuel` bounds the
recursion and is instantiated with the length of the list. -/
def chunks (n : Nat) : Nat → List α → List (List α)
  | 0, _ => []
  | _, [] => []
  | fuel + 1, l => l.take n :: chunks n fuel (l.drop n)

/-- Merkle–Damgård padding: append `0x80`, zero bytes, and the bit length in
a big-endian length field of `lenField` bytes, filling up to a multiple of
`blockSize`. -/
def mdPad (lenField blockSize : Nat) (msg : List Nat) : List Nat :=
  msg ++ 0x80 :: List.replicate
      (blockSize - 1 - (msg.length + lenField) % blockSize) 0
    ++ toBytesBE lenField (8 * msg.length)

/-- SHA-1 working state: five 32-bit words. -/
structure SHA1State where
  a : Nat
  b : Nat
  c : Nat
  d : Nat
  e : Nat

/-- SHA-1 initial state (FIPS 180-4). -/
def sha1Init : SHA1State :=
  ⟨1732584193, 4023233417, 2562383102, 271733878, 3285377520⟩

/-- SHA-1 message-schedule extension of the 16 block words to 80 words. -/
def sha1Extend (ws : List Nat) : List Nat :=
  (List.range 64).foldl (fun acc _ =>
    let n := acc.length
    acc ++ [rotl32 1 ((acc.getD (n - 3) 0) ^^^ (acc.getD (n - 8) 0) ^^^
                      (acc.getD (n - 14) 0) ^^^ (acc.getD (n - 16) 0))]) ws

/-- SHA-1 round function. -/
def sha1F (i b c d : Nat) : Nat :=
  if i < 20 then (b &&& c) ||| ((b ^^^ 0xffffffff) &&& d)
  else if i < 40 then b ^^^ c ^^^ d
  else if i < 60 then (b &&& c) ||| (b &&& d) ||| (c &&& d)
  else b ^^^ c ^^^ d

/-- SHA-1 round constants. -/
def sha1K (i : Nat) : Nat :=
  if i < 20 then 1518500249
  else if i < 40 then 1859775393
  else if i < 60 then 2400959708
  else 3395469782

/-- SHA-1 compression of one 64-byte block into the state. -/
def sha1Compress (st : SHA1State) (block : List Nat) : SHA1State :=
  let w := sha1Extend (words32 block)
  let r := (List.range 80).foldl
    (fun (t : Nat × Nat × Nat × Nat × Nat) i =>
      let tmp := w32 (rotl32 5 t.1 + sha1F i t.2.1 t.2.2.1 t.2.2.2.1 +
                      t.2.2.2.2 + sha1K i + w.getD i 0)
      (tmp, t.1, rotl32 30 t.2.1, t.2.2.1, t.2.2.2.1))
    (st.a, st.b, st.c, st.d, st.e)
  ⟨w32 (st.a + r.1), w32 (st.b + r.2.1), w32 (st.c + r.2.2.1),
   w32 (st.d + r.2.2.2.1), w32 (st.e + r.2.2.2.2)⟩

/-- SHA-1 of a byte list (the digest `crypto/sha1` returns), 20 bytes. -/
def sha1Hash (msg : List Nat) : List Nat :=
  let padded := mdPad 8 64 msg
  let st := (chunks 64 padded.length padded).foldl sha1Compress sha1Init
  toBytesBE 4 st.a ++ toBytesBE 4 st.b ++ toBytesBE 4 st.c ++
  toBytesBE 4 st.d ++ toBytesBE 4 st.e

/-- SHA-2 working state: eight machine words. -/
structure SHA2State where
  a : Nat
  b : Nat
  c : Nat
  d : Nat
  e : Nat
  f : Nat
  g : Nat
  h : Nat

/-- SHA-256 initial state (FIPS 180-4). -/
def sha256Init : SHA2State :=
  ⟨1779033703, 3144134277, 1013904242, 2773480762,
   1359893119, 2600822924, 528734635, 1541459225⟩

/-- SHA-256 round constants (FIPS 180-4). -/
def sha256K : List Nat :=
  [1116352408, 1899447441, 3049323471, 3921009573,
   961987163, 1508970993, 2453635748, 2870763221,
   3624381080, 310598401, 607225278, 1426881987,
   1925078388, 2162078206, 2614888103, 3248222580,
   3835390401, 4022224774, 264347078, 604807628,
   770255983, 1249150122, 1555081692, 1996064986,
   2554220882, 2821834349, 2952996808, 3210313671,
   3336571891, 3584528711, 113926993, 338241895,
   666307205, 773529912, 1294757372, 1396182291,
   1695183700, 1986661051, 2177026350, 2456956037,
   2730485921, 2820302411, 3259730800, 3345764771,
   3516065817, 3600352804, 4094571909, 275423344,
   430227734, 506948616, 659060556, 883997877,
   958139571, 1322822218, 1537002063, 1747873779,
   1955562222, 2024104815, 2227730452, 2361852424,
   2428436474, 2756734187, 3204031479, 3329325298]

/-- SHA-256 message-schedule extension of the 16 block words to 64 words. -/
def sha256Extend (ws : List Nat) : List Nat :=
  (List.range 48).foldl (fun acc _ =>
    let n := acc.length
    let x15 := acc.getD (n - 15) 0
    let x2 := acc.getD (n - 2) 0
    let s0 := rotr32 7 x15 ^^^ rotr32 18 x15 ^^^ (x15 >>> 3)
    let s1 := rotr32 17 x2 ^^^ rotr32 19 x2 ^^^ (x2 >>> 10)
    acc ++ [w32 (acc.getD (n - 16) 0 + s0 + acc.getD (n - 7) 0 + s1)]) ws

/-- SHA-256 compression of one 64-byte block into the state. -/
def sha256Compress (st : SHA2State) (block : List Nat) : SHA2State :=
  let w := sha256Extend (words32 block)
  let r := (List.range 64).foldl
    (fun (t : SHA2State) i =>
      let S1 := rotr32 6 t.e ^^^ rotr32 11 t.e ^^^ rotr32 25 t.e
      let ch := (t.e &&& t.f) ^^^ ((t.e ^^^ 0xffffffff) &&& t.g)
      let t1 := w32 (t.h + S1 + ch + sha256K.getD i 0 + w.getD i 0)
      let S0 := rotr32 2 t.a ^^^ rotr32 13 t.a ^^^ rotr32 22 t.a
      let maj := (t.a &&& t.b) ^^^ (t.a &&& t.c) ^^^ (t.b &&& t.c)
      ⟨w32 (t1 + w32 (S0 + maj)), t.a, t.b, t.c, w32 (t.d + t1),
       t.e, t.f, t.g⟩) st
  ⟨w32 (st.a + r.a), w32 (st.b + r.b), w32 (st.c + r.c), w32 (st.d + r.d),
   w32 (st.e + r.e), w32 (st.f + r.f), w32 (st.g + r.g), w32 (st.h + r.h)⟩

/-- SHA-256 of a byte list (the digest `crypto/sha256` returns), 32 bytes. -/
def sha256Hash (msg : List Nat) : List Nat :=
  let padded := mdPad 8 64 msg
  let st := (chunks 64 padded.length padded).foldl sha256Compress sha256Init
  toBytesBE 4 st.a ++ toBytesBE 4 st.b ++ toBytesBE 4 st.c ++
  toBytesBE 4 st.d ++ toBytesBE 4 st.e ++ toBytesBE 4 st.f ++
  toBytesBE 4 st.g ++ toBytesBE 4 st.h

/-- SHA-512 initial state (FIPS 180-4). -/
def sha512Init : SHA2State :=
  ⟨7640891576956012808, 13503953896175478587, 4354685564936845355,
   11912009170470909681, 5840696475078001361, 11170449401992604703,
   2270897969802886507, 6620516959819538809⟩

/-- SHA-512 round constants (FIPS 180-4). -/
def sha512K : List Nat :=
  [4794697086780616226, 8158064640168781261, 13096744586834688815,
   16840607885511220156, 4131703408338449720, 6480981068601479193,
   10538285296894168987, 12329834152419229976, 15566598209576043074,
   1334009975649890238, 2608012711638119052, 6128411473006802146,
   8268148722764581231, 9286055187155687089, 11230858885718282805,
   13951009754708518548, 16472876342353939154, 17275323862435702243,
   1135362057144423861, 2597628984639134821, 3308224258029322869,
   5365058923640841347, 6679025012923562964, 8573033837759648693,
   10970295158949994411, 12119686244451234320, 12683024718118986047,
   13788192230050041572, 14330467153632333762, 15395433587784984357,
   489312712824947311, 1452737877330783856, 2861767655752347644,
   3322285676063803686, 5560940570517711597, 5996557281743188959,
   7280758554555802590, 8532644243296465576, 9350256976987008742,
   10552545826968843579, 11727347734174303076, 12113106623233404929,
   14000437183269869457, 14369950271660146224, 15101387698204529176,
   15463397548674623760, 17586052441742319658, 1182934255886127544,
   1847814050463011016, 2177327727835720531, 2830643537854262169,
   3796741975233480872, 4115178125766777443, 5681478168544905931,
   6601373596472566643, 7507060721942968483, 8399075790359081724,
   8693463985226723168, 9568029438360202098, 10144078919501101548,
   10430055236837252648, 11840083180663258601, 13761210420658862357,
   14299343276471374635, 14566680578165727644, 15097957966210449927,
   16922976911328602910, 17689382322260857208, 500013540394364858,
   748580250866718886, 1242879168328830382, 1977374033974150939,
   2944078676154940804, 3659926193048069267, 4368137639120453308,
   4836135668995329356, 5532061633213252278, 6448918945643986474,
   6902733635092675308, 7801388544844847127]

/-- SHA-512 message-schedule extension of the 16 block words to 80 words. -/
def sha512Extend (ws : List Nat) : List Nat :=
  (List.range 64).foldl (fun acc _ =>
    let n := acc.length
    let x15 := acc.getD (n - 15) 0
    let x2 := acc.getD (n - 2) 0
    let s0 := rotr64 1 x15 ^^^ rotr64 8 x15 ^^^ (x15 >>> 7)
    let s1 := rotr64 19 x2 ^^^ rotr64 61 x2 ^^^ (x2 >>> 6)
    acc ++ [w64 (acc.getD (n - 16) 0 + s0 + acc.getD (n - 7) 0 + s1)]) ws

/-- SHA-512 compression of one 128-byte block into the state. -/
def sha512Compress (st : SHA2State) (block : List Nat) : SHA2State :=
  let w := sha512Extend (words64 block)
  let r := (List.range 80).foldl
    (fun (t : SHA2State) i =>
      let S1 := rotr64 14 t.e ^^^ rotr64 18 t.e ^^^ rotr64 41 t.e
      let ch := (t.e &&& t.f) ^^^ ((t.e ^^^ 0xffffffffffffffff) &&& t.g)
      let t1 := w64 (t.h + S1 + ch + sha512K.getD i 0 + w.getD i 0)
      let S0 := rotr64 28 t.a ^^^ rotr64 34 t.a ^^^ rotr64 39 t.a
      let maj := (t.a &&& t.b) ^^^ (t.a &&& t.c) ^^^ (t.b &&& t.c)
      ⟨w64 (t1 + w64 (S0 + maj)), t.a, t.b, t.c, w64 (t.d + t1),
       t.e, t.f, t.g⟩) st
  ⟨w64 (st.a + r.a), w64 (st.b + r.b), w64 (st.c + r.c), w64 (st.d + r.d),
   w64 (st.e + r.e), w64 (st.f + r.f), w64 (st.g + r.g), w64 (st.h + r.h)⟩

/-- SHA-512 of a byte list (the digest `crypto/sha512` returns), 64 bytes.
The length field of the padding is 128 bits; messages here are far below
`2 ^ 125` bytes, so the 16-byte big-endian field is exact. -/
def sha512Hash (msg : List Nat) : List Nat :=
  let padded := mdPad 16 128 msg
  let st := (chunks 128 padded.length padded).foldl sha512Compress sha512Init
  toBytesBE 8 st.a ++ toBytesBE 8 st.b ++ toBytesBE 8 st.c ++
  toBytesBE 8 st.d ++ toBytesBE 8 st.e ++ toBytesBE 8 st.f ++
  toBytesBE 8 st.g ++ toBytesBE 8 st.h

/-- The closed set of hash primitives the generator supports
(`sha1.New`, `sha256.New`, `sha512.New` in `main.go`). -/
inductive Primitive
  | sha1
  | sha256
  | sha512
deriving DecidableEq

/-- Digest computation of the selected primitive. -/
def hashBytes : Primitive → List Nat → List Nat
  | .sha1 => sha1Hash
  | .sha256 => sha256Hash
  | .sha512 => sha512Hash

/-- HMAC block size of the selected primitive (Go `BlockSize`). -/
def hashBlockSize : Primitive → Nat
  | .sha1 => 64
  | .sha256 => 64
  | .sha512 => 128

/-- Digest length in bytes of the selected primitive (Go `Size`). -/
def hashLen : Primitive → Nat
  | .sha1 => 20
  | .sha256 => 32
  | .sha512 => 64

/-- The standard HMAC construction of Go `crypto/hmac`: a key longer than
the block size is first hashed, the key is zero-padded to the block size,
and the digest is `H(opadKey ++ H(ipadKey ++ data))`. -/
def hmacBytes (hashFn : List Nat → List Nat) (blockSize : Nat)
    (key data : List Nat) : List Nat :=
  let key1 := if blockSize < key.length then hashFn key else key
  let kpad := key1 ++ List.replicate (blockSize - key1.length) 0
  let ipad := kpad.map (fun b => b ^^^ 0x36)
  let opad := kpad.map (fun b => b ^^^ 0x5c)
  hashFn (opad ++ hashFn (ipad ++ data))

/-- `GenerateHMAC` of `main.go`: `hmac.New(hashFunc, key)` applied to the
data, specialised to the three supported primitives. -/
def GenerateHMAC (p : Primitive) (key data : List Nat) : List Nat :=
  hmacBytes (hashBytes p) (hashBlockSize p) key data

/-- Position of a character in the RFC 4648 standard base-32 alphabet. -/
def b32Index (c : Char) : Option Nat :=
  "ABCDEFGHIJKLMNOPQRSTUVWXYZ234567".toList.findIdx? (· == c)

/-- Number of bytes carried by a quantum with `dlen` data characters
(Go `encoding/base32` accepts only 2, 4, 5, 7 or 8 data characters). -/
def quantumLen : Nat → Nat
  | 2 => 1
  | 4 => 2
  | 5 => 3
  | 7 => 4
  | 8 => 5
  | _ => 0

/-- Decode one 8-character base-32 quantum, as Go `encoding/base32` does:
characters must come from the alphabet, `=` padding may only follow the
data characters, only the final quantum may be padded, and the number of
data characters must be 2, 4, 5, 7 or 8.  The data characters form a
40-bit group read big-endian; the group yields `quantumLen dlen` bytes. -/
def decodeQuantum (cs : List Char) (isFinal : Bool) : Option (List Nat) :=
  let dlen := (cs.takeWhile (fun c => c != '=')).length
  if (cs.drop dlen).all (fun c => c == '=') &&
      (dlen == 2 || dlen == 4 || dlen == 5 || dlen == 7 || dlen == 8) &&
      (dlen == 8 || isFinal) then
    match (cs.take dlen).mapM b32Index with
    | some ds =>
        let v := (ds ++ List.replicate (8 - dlen) 0).foldl
          (fun a d => a * 32 + d) 0
        some ((toBytesBE 5 v).take (quantumLen dlen))
    | none => none
  else none

/-- Decode a base-32 character stream quantum by quantum; the length must
be a multiple of 8 (standard padded encoding). -/
def decodeB32Chars : List Char → Option (List Nat)
  | [] => some []
  | c0 :: c1 :: c2 :: c3 :: c4 :: c5 :: c6 :: c7 :: rest =>
      match decodeQuantum [c0, c1, c2, c3, c4, c5, c6, c7] rest.isEmpty,
          decodeB32Chars rest with
      | some bs, some bs2 => some (bs ++ bs2)
      | _, _ => none
  | _ => none

/-- `DecodeBase32` of `main.go`: `base32.StdEncoding.DecodeString`.
`none` models the `CorruptInputError` return. -/
def DecodeBase32 (secret : String) : Option (List Nat) :=
  decodeB32Chars secret.toList

/-- `ConvertTime` of `main.go`: the loop `data[i] = byte(interval & 0xff);
interval >>= 8` for `i = 7 .. 0` stores the low 64 bits of the signed
interval — its value modulo `2 ^ 64` — as 8 big-endian bytes. -/
def ConvertTime (interval : Int) : List Nat :=
  let n := (interval % (18446744073709551616 : Int)).toNat
  [(n >>> 56) &&& 0xff, (n >>> 48) &&& 0xff, (n >>> 40) &&& 0xff,
   (n >>> 32) &&& 0xff, (n >>> 24) &&& 0xff, (n >>> 16) &&& 0xff,
   (n >>> 8) &&& 0xff, n &&& 0xff]

/-- `HashTruncation` of `main.go`: offset from the low 4 bits of the last
byte, then the masked big-endian word over `hash[offset .. offset+3]`.
Each indexing is bounds-checked in sequence, as the Go runtime does;
`none` models the index-out-of-range panic when an access is out of
bounds (including the read of the last byte of an empty digest). -/
def HashTruncation (hash : List Nat) : Option Nat :=
  hash.getLast?.bind fun lastByte =>
    let offset := lastByte &&& 0x0f
    (hash.get? offset).bind fun b0 =>
    (hash.get? (offset + 1)).bind fun b1 =>
    (hash.get? (offset + 2)).bind fun b2 =>
    (hash.get? (offset + 3)).bind fun b3 =>
    some ((b0 &&& 0x7f) <<< 24 ||| (b1 &&& 0xff) <<< 16 |||
          (b2 &&& 0xff) <<< 8 ||| (b3 &&& 0xff))

/-- Failure outcomes of `generateTOTP`.  `invalidEncoding` is the base-32
`CorruptInputError` returned through `err`; the other two model Go runtime
panics: the out-of-bounds digest access in `HashTruncation` and the
`% 0` divide-by-zero when the divisor wraps to zero. -/
inductive TotpError
  | invalidEncoding
  | digestTooShort
  | divideByZero
deriving DecidableEq

/-- Absolute value of the `int64` whose unsigned 64-bit representation is
`n`. -/
def int64Abs (n : Nat) : Nat :=
  if n < 9223372036854775808 then n else 18446744073709551616 - n

/-- `generateTOTP` of `main.go`, with the call `time.Now().Unix()` made an
explicit parameter `now` (seconds since the Unix epoch, an `int64`).  Go
`/` on signed integers truncates toward zero (`Int.tdiv`); the divisor
loop computes `10 ^ digits` in wrapping 64-bit arithmetic; `%` on a
non-negative dividend reduces modulo the absolute value of the divisor
and panics when the divisor is zero. -/
def generateTOTP (secret : String) (hashFunc : Primitive) (digits : Int)
    (now : Int) : String × Option TotpError :=
  match DecodeBase32 secret with
  | none => ("", some .invalidEncoding)
  | some key =>
    let interval : Int := now.tdiv 30
    let data := ConvertTime interval
    let hash := GenerateHMAC hashFunc key data
    match HashTruncation hash with
    | none => ("", some .digestTooShort)
    | some truncatedHash =>
      let divisor : Nat := (10 ^ digits.toNat) % 18446744073709551616
      if divisor = 0 then ("", some .divideByZero)
      else (Nat.repr (truncatedHash % int64Abs divisor), none)

/-- The RFC 6238 Appendix B secret: the base-32 encoding of the ASCII
string of twenty bytes `"12345678901234567890"`. -/
def rfcSecret : String := "GEZDGNBVGY3TQOJQGEZDGNBVGY3TQOJQ"

/-- The raw key bytes the RFC 6238 Appendix B secret decodes to: the ASCII
codes of `"12345678901234567890"`. -/
def rfcKey : List Nat :=
  [49, 50, 51, 52, 53, 54, 55, 56, 57, 48,
   49, 50, 51, 52, 53, 54, 55, 56, 57, 48]

/-- Big-endian numeric value of a byte list. -/
def beVal (bs : List Nat) : Nat := bs.foldl (fun a b => a * 256 + b) 0

/-- The offset dynamic truncation selects: the low-order 4 bits of the
last digest byte (0 for the empty digest). -/
def truncOffset (h : List Nat) : Nat := h.getLast?.getD 0 &&& 0x0f

/-- The 31-bit integer dynamic truncation extracts: the big-endian word
over the 4 bytes at the offset, the leading byte masked with `0x7f`, the
others with `0xff`. -/
def truncValue (h : List Nat) : Nat :=
  ((h.getD (truncOffset h) 0 &&& 0x7f) <<< 24) |||
  ((h.getD (truncOffset h + 1) 0 &&& 0xff) <<< 16) |||
  ((h.getD (truncOffset h + 2) 0 &&& 0xff) <<< 8) |||
  (h.getD (truncOffset h + 3) 0 &&& 0xff)

/-! Sanity checks of the embedded primitives against published digests. -/

example : sha1Hash [] =
    [218, 57, 163, 238, 94, 107, 75, 13, 50, 85, 191, 239, 149, 96, 24,
     144, 175, 216, 7, 9] := by decide

example : sha1Hash [97, 98, 99] =
    [169, 153, 62, 54, 71, 6, 129, 106, 186, 62, 37, 113, 120, 80, 194,
     108, 156, 208, 216, 157] := by decide

example : sha256Hash [97, 98, 99] =
    [186, 120, 22, 191, 143, 1, 207, 234, 65, 65, 64, 222, 93, 174, 34, 35,
     176, 3, 97, 163, 150, 23, 122, 156, 180, 16, 255, 97, 242, 0, 21,
     173] := by decide

example : sha512Hash [97, 98, 99] =
    [221, 175, 53, 161, 147, 97, 122, 186, 204, 65, 115, 73, 174, 32, 65,
     49, 18, 230, 250, 78, 137, 169, 126, 162, 10, 158, 238, 230, 75, 85,
     211, 154, 33, 146, 153, 42, 39, 79, 193, 168, 54, 186, 60, 35, 163,
     254, 235, 189, 69, 77, 68, 35, 100, 60, 232, 14, 42, 154, 201, 79,
     165, 76, 164, 159] := by decide

example : DecodeBase32 rfcSecret = some rfcKey := by decide

example : DecodeBase32 "" = some [] := by decide

example : DecodeBase32 "1" = none := by decide

example : DecodeBase32 "8" = none := by decide

example : DecodeBase32 "MZXW6===" = some [102, 111, 111] := by decide

/-! Helper lemmas about the embedded definitions. -/

theorem toBytesBE_length (k n : Nat) : (toBytesBE k n).length = k := by
  induction k generalizing n with
  | zero => rfl
  | succ k ih => simp [toBytesBE, ih]

theorem sha1Hash_length (msg : List Nat) : (sha1Hash msg).length = 20 := by
  simp [sha1Hash, toBytesBE_length]

theorem sha256Hash_length (msg : List Nat) :
    (sha256Hash msg).length = 32 := by
  simp [sha256Hash, toBytesBE_length]

theorem sha512Hash_length (msg : List Nat) :
    (sha512Hash msg).length = 64 := by
  simp [sha512Hash, toBytesBE_length]

theorem hashBytes_length (p : Primitive) (msg : List Nat) :
    (hashBytes p msg).length = hashLen p := by
  cases p <;>
    simp [hashBytes, hashLen, sha1Hash_length, sha256Hash_length,
      sha512Hash_length]

theorem GenerateHMAC_length (p : Primitive) (key data : List Nat) :
    (GenerateHMAC p key data).length = hashLen p := by
  simp [GenerateHMAC, hmacBytes, hashBytes_length]

theorem truncOffset_le (h : List Nat) : truncOffset h ≤ 15 :=
  Nat.and_le_right

theorem get?_eq_some_getD (l : List Nat) (i : Nat) (hi : i < l.length) :
    l.get? i = some (l.getD i 0) := by
  rw [List.get?_eq_getElem?, List.getElem?_eq_getElem hi,
    List.getD_eq_getElem?_getD, List.getElem?_eq_getElem hi]
  rfl

theorem hashTruncation_eq (h : List Nat) (hlen : 19 ≤ h.length) :
    HashTruncation h = some (truncValue h) := by
  cases hl : h.getLast? with
  | none =>
      rw [List.getLast?_eq_none_iff] at hl
      subst hl
      simp at hlen
  | some lastByte =>
      have hoff : truncOffset h = lastByte &&& 15 := by
        simp [truncOffset, hl]
      have hle : lastByte &&& 15 ≤ 15 := Nat.and_le_right
      have e0 := get?_eq_some_getD h (lastByte &&& 15) (by omega)
      have e1 := get?_eq_some_getD h ((lastByte &&& 15) + 1) (by omega)
      have e2 := get?_eq_some_getD h ((lastByte &&& 15) + 2) (by omega)
      have e3 := get?_eq_some_getD h ((lastByte &&& 15) + 3) (by omega)
      simp only [HashTruncation, hl, Option.some_bind, e0, e1, e2, e3,
        truncValue, hoff]

theorem truncValue_lt (h : List Nat) : truncValue h < 2 ^ 31 := by
  have b0 : (h.getD (truncOffset h) 0 &&& 127) <<< 24 < 2 ^ 31 := by
    have hx : h.getD (truncOffset h) 0 &&& 127 ≤ 127 := Nat.and_le_right
    rw [Nat.shiftLeft_eq]
    omega
  have b1 : (h.getD (truncOffset h + 1) 0 &&& 255) <<< 16 < 2 ^ 31 := by
    have hx : h.getD (truncOffset h + 1) 0 &&& 255 ≤ 255 := Nat.and_le_right
    rw [Nat.shiftLeft_eq]
    omega
  have b2 : (h.getD (truncOffset h + 2) 0 &&& 255) <<< 8 < 2 ^ 31 := by
    have hx : h.getD (truncOffset h + 2) 0 &&& 255 ≤ 255 := Nat.and_le_right
    rw [Nat.shiftLeft_eq]
    omega
  have b3 : h.getD (truncOffset h + 3) 0 &&& 255 < 2 ^ 31 := by
    have hx : h.getD (truncOffset h + 3) 0 &&& 255 ≤ 255 := Nat.and_le_right
    omega
  exact Nat.or_lt_two_pow (Nat.or_lt_two_pow (Nat.or_lt_two_pow b0 b1) b2) b3

theorem hashLen_ge_19 (p : Primitive) : 19 ≤ hashLen p := by
  cases p <;> decide

theorem beVal_convertTime (c : Int) :
    (beVal (ConvertTime c) : Int) = c % 18446744073709551616 := by
  have h0 : 0 ≤ c % 18446744073709551616 := Int.emod_nonneg c (by norm_num)
  have h1 : c % 18446744073709551616 < 18446744073709551616 :=
    Int.emod_lt_of_pos c (by norm_num)
  have hand : ∀ m : Nat, m &&& 255 = m % 256 := fun m => by
    have := Nat.and_pow_two_sub_one_eq_mod m 8
    norm_num at this
    exact this
  have hb : beVal (ConvertTime c) = (c % 18446744073709551616).toNat := by
    simp only [ConvertTime, beVal, List.foldl, Nat.shiftRight_eq_div_pow,
      hand]
    norm_num
    omega
  rw [hb, Int.toNat_of_nonneg h0]

theorem ten_pow_mod_ne_zero (k : Nat) (hk : k < 64) :
    10 ^ k % 18446744073709551616 ≠ 0 := by
  intro h0
  have hdvd : (18446744073709551616 : Nat) ∣ 10 ^ k :=
    Nat.dvd_of_mod_eq_zero h0
  have h10 : (10 : Nat) ^ k = 2 ^ k * 5 ^ k := by
    rw [show (10 : Nat) = 2 * 5 by norm_num, Nat.mul_pow]
  have h2 : (18446744073709551616 : Nat) = 2 ^ 64 := by norm_num
  rw [h10, h2] at hdvd
  have hcop : Nat.Coprime (2 ^ 64) (5 ^ k) :=
    Nat.Coprime.pow 64 k (by decide)
  have hdvd2 : (2 ^ 64 : Nat) ∣ 2 ^ k := hcop.dvd_of_dvd_mul_right hdvd
  have hle : 64 ≤ k := (Nat.pow_dvd_pow_iff_le_right (by norm_num)).mp hdvd2
  omega

theorem generateTOTP_eq_of_decode (s : String) (key : List Nat)
    (p : Primitive) (d t : Int) (hkey : DecodeBase32 s = some key)
    (hd : d < 64) :
    generateTOTP s p d t =
      (Nat.repr (truncValue (GenerateHMAC p key (ConvertTime (t.tdiv 30))) %
        int64Abs (10 ^ d.toNat % 18446744073709551616)), none) := by
  have hdiv : 10 ^ d.toNat % 18446744073709551616 ≠ 0 :=
    ten_pow_mod_ne_zero d.toNat (by omega)
  have htr := hashTruncation_eq (GenerateHMAC p key (ConvertTime (t.tdiv 30)))
    (by rw [GenerateHMAC_length]; exact hashLen_ge_19 p)
  simp [generateTOTP, hkey, htr, hdiv]

theorem generateTOTP_snd_eq_none (s : String) (key : List Nat)
    (p : Primitive) (d t : Int) (hkey : DecodeBase32 s = some key)
    (hd : d < 64) : (generateTOTP s p d t).2 = none := by
  rw [generateTOTP_eq_of_decode s key p d t hkey hd]

/-! Claim theorems. -/

/-- Claim C3: for every digest produced by one of the three supported
primitives, dynamic truncation succeeds, computes the big-endian word at
the offset given by the low 4 bits of the last byte with the leading byte
masked by `0x7f` and the rest by `0xff` (the value `truncValue`), and the
result always lies in `[0, 2 ^ 31 - 1]`. -/
theorem truncation_of_supported_digests (p : Primitive)
    (key data : List Nat) :
    HashTruncation (GenerateHMAC p key data) =
      some (truncValue (GenerateHMAC p key data)) ∧
    truncValue (GenerateHMAC p key data) < 2 ^ 31 := by
  constructor
  · exact hashTruncation_eq _ (by rw [GenerateHMAC_length]; exact hashLen_ge_19 p)
  · exact truncValue_lt _

/-- Claim C5: for every non-negative time `t` in the `int64` range, the
time-step encoder produces the 8-byte big-endian encoding of
`floor (t / 30)` (with step 30 s), and the encoding is lossless
(injective) on every counter value representable in 64 bits. -/
theorem convertTime_encodes_counter (t : Int) (h0 : 0 ≤ t)
    (h1 : t < 2 ^ 63) :
    (ConvertTime (t.tdiv 30)).length = 8 ∧
    (beVal (ConvertTime (t.tdiv 30)) : Int) = t / 30 ∧
    ∀ c₁ c₂ : Int, 0 ≤ c₁ → c₁ < 2 ^ 64 → 0 ≤ c₂ → c₂ < 2 ^ 64 →
      ConvertTime c₁ = ConvertTime c₂ → c₁ = c₂ := by
  have htd : t.tdiv 30 = t / 30 := Int.tdiv_eq_ediv h0 (by norm_num)
  refine ⟨rfl, ?_, ?_⟩
  · rw [htd, beVal_convertTime]
    have ha : 0 ≤ t / 30 := Int.ediv_nonneg h0 (by norm_num)
    omega
  · intro c₁ c₂ a1 a2 a3 a4 heq
    have e1 := beVal_convertTime c₁
    have e2 := beVal_convertTime c₂
    rw [heq] at e1
    omega

/-- Witness for C5 at the concrete time 59 s. -/
theorem convertTime_encodes_counter_witness :
    (ConvertTime ((59 : Int).tdiv 30)).length = 8 ∧
    (beVal (ConvertTime ((59 : Int).tdiv 30)) : Int) = 59 / 30 :=
  ⟨(convertTime_encodes_counter 59 (by norm_num) (by norm_num)).1,
   (convertTime_encodes_counter 59 (by norm_num) (by norm_num)).2.1⟩

/-- Claim C8: dynamic truncation bounds-checks every access: a digest
shorter than `offset + 4` makes it fail (the modelled index-out-of-range
abort, the fatal `DigestTooShort` condition) instead of reading out of
bounds, while under the precondition `19 ≤ length` every access is in
bounds and the failure branch is unreachable; the digests of all three
supported primitives satisfy the precondition. -/
theorem truncation_bounds_checks (h : List Nat) :
    (h.length < truncOffset h + 4 → HashTruncation h = none) ∧
    (19 ≤ h.length → (HashTruncation h).isSome = true) ∧
    ∀ (p : Primitive) (key data : List Nat),
      19 ≤ (GenerateHMAC p key data).length := by
  refine ⟨?_, ?_, ?_⟩
  · intro hshort
    cases hl : h.getLast? with
    | none => simp [HashTruncation, hl]
    | some lastByte =>
        have hoff : truncOffset h = lastByte &&& 15 := by
          simp [truncOffset, hl]
        rw [hoff] at hshort
        have h3 : h[(lastByte &&& 15) + 3]? = none :=
          List.getElem?_eq_none (by omega)
        simp [HashTruncation, hl, h3]
  · intro hlen
    rw [hashTruncation_eq h hlen]
    rfl
  · intro p key data
    rw [GenerateHMAC_length]
    exact hashLen_ge_19 p

/-- Witness for C8: a 1-byte digest aborts, a 19-byte digest succeeds,
and a SHA-1 HMAC digest meets the length precondition. -/
theorem truncation_bounds_checks_witness :
    HashTruncation [1] = none ∧
    (HashTruncation [0, 0, 0, 0, 0, 0, 0, 0, 0, 0, 0, 0, 0, 0, 0, 0, 0, 0,
      0]).isSome = true ∧
    19 ≤ (GenerateHMAC .sha1 [] []).length :=
  ⟨(truncation_bounds_checks [1]).1 (by decide),
   (truncation_bounds_checks _).2.1 (by decide),
   (truncation_bounds_checks []).2.2 .sha1 [] []⟩

/-- Claim C10: two digests of equal length at least `offset + 4` that
agree on their last byte and on the 4 bytes of the truncation window get
the same truncated value: no other digest byte influences the result. -/
theorem truncation_reads_only_window (h₁ h₂ : List Nat)
    (hlen : h₁.length = h₂.length)
    (hbound : truncOffset h₁ + 4 ≤ h₁.length)
    (hlast : h₁.getLast? = h₂.getLast?)
    (e0 : h₁.get? (truncOffset h₁) = h₂.get? (truncOffset h₁))
    (e1 : h₁.get? (truncOffset h₁ + 1) = h₂.get? (truncOffset h₁ + 1))
    (e2 : h₁.get? (truncOffset h₁ + 2) = h₂.get? (truncOffset h₁ + 2))
    (e3 : h₁.get? (truncOffset h₁ + 3) = h₂.get? (truncOffset h₁ + 3)) :
    HashTruncation h₁ = HashTruncation h₂ := by
  cases hl : h₁.getLast? with
  | none =>
      have hl₂ : h₂.getLast? = none := by rw [← hlast, hl]
      simp [HashTruncation, hl, hl₂]
  | some lastByte =>
      have hl₂ : h₂.getLast? = some lastByte := by rw [← hlast, hl]
      have hoff : truncOffset h₁ = lastByte &&& 15 := by
        simp [truncOffset, hl]
      rw [hoff] at e0 e1 e2 e3
      simp only [HashTruncation, hl, hl₂, Option.some_bind]
      rw [← e0, ← e1, ← e2, ← e3]

/-- Witness for C10: two 9-byte digests that differ in their first byte
but agree on the last byte and the window at offset 4 truncate equally. -/
theorem truncation_reads_only_window_witness :
    HashTruncation [1, 2, 3, 4, 50, 60, 70, 80, 4] =
      HashTruncation [99, 2, 3, 4, 50, 60, 70, 80, 4] :=
  truncation_reads_only_window _ _ (by decide) (by decide) (by decide)
    (by decide) (by decide) (by decide) (by decide)

/-- Claim C4 (amended): `generateTOTP` accepts the digit count 5 —
there is no `UnsupportedDigitCount` rejection — and returns the truncated
value reduced modulo `10 ^ 5`, rendered without padding. -/
theorem digits_five_reduces_mod_ten_pow_five (s : String) (key : List Nat)
    (p : Primitive) (t : Int) (hkey : DecodeBase32 s = some key) :
    generateTOTP s p 5 t =
      (Nat.repr (truncValue (GenerateHMAC p key (ConvertTime (t.tdiv 30))) %
        100000), none) := by
  rw [generateTOTP_eq_of_decode s key p 5 t hkey (by norm_num)]
  have h5 : (5 : Int).toNat = 5 := rfl
  norm_num [int64Abs, h5]

/-- Witness for amended C4 at the RFC secret and time 59 s. -/
theorem digits_five_reduces_mod_ten_pow_five_witness :
    generateTOTP rfcSecret .sha1 5 59 =
      (Nat.repr (truncValue (GenerateHMAC .sha1 rfcKey
        (ConvertTime ((59 : Int).tdiv 30))) % 100000), none) :=
  digits_five_reduces_mod_ten_pow_five rfcSecret rfcKey .sha1 59 (by decide)

/-- Claim C6 (amended): a time before the epoch is accepted, not rejected
with an `InvalidTime` error: the code succeeds and the negative counter is
silently wrapped into its two's-complement 64-bit big-endian encoding. -/
theorem negative_time_wraps_counter (s : String) (key : List Nat)
    (p : Primitive) (t : Int) (ht : t < 0)
    (hkey : DecodeBase32 s = some key) :
    (generateTOTP s p 6 t).2 = none ∧
    (beVal (ConvertTime (t.tdiv 30)) : Int) = t.tdiv 30 % 2 ^ 64 := by
  refine ⟨generateTOTP_snd_eq_none s key p 6 t hkey (by norm_num), ?_⟩
  rw [beVal_convertTime]
  norm_num

/-- Witness for amended C6 at the concrete time -59 s. -/
theorem negative_time_wraps_counter_witness :
    (generateTOTP rfcSecret .sha1 6 (-59)).2 = none ∧
    (beVal (ConvertTime ((-59 : Int).tdiv 30)) : Int) =
      (-59 : Int).tdiv 30 % 2 ^ 64 :=
  negative_time_wraps_counter rfcSecret rfcKey .sha1 (-59) (by norm_num)
    (by decide)

/-- Claim C7 (amended): the empty secret decodes to zero key bytes and
`generateTOTP` accepts it: the pipeline proceeds to the HMAC stage with an
empty key and returns a code, with no `EmptySecret` rejection. -/
theorem empty_secret_proceeds_with_empty_key (p : Primitive) (t : Int) :
    DecodeBase32 "" = some [] ∧ (generateTOTP "" p 6 t).2 = none :=
  ⟨by decide, generateTOTP_snd_eq_none "" [] p 6 t (by decide) (by norm_num)⟩

/-- Claim C9 (amended): for digit counts below 64, `generateTOTP` fails
exactly when base-32 decoding fails — on failure it returns the empty
string with the decoding error, and on success no later stage errors.
(For digit counts of 64 or more the divisor wraps to zero and the
computation aborts, see the counterexample.) -/
theorem error_iff_decode_fails_for_small_digits (s : String)
    (p : Primitive) (d t : Int) (hd : d < 64) :
    (DecodeBase32 s = none →
      generateTOTP s p d t = ("", some .invalidEncoding)) ∧
    ∀ key, DecodeBase32 s = some key → (generateTOTP s p d t).2 = none := by
  constructor
  · intro h
    simp [generateTOTP, h]
  · intro key hkey
    exact generateTOTP_snd_eq_none s key p d t hkey hd

/-- Witness for amended C9: an invalid secret surfaces the decoding
error, a valid one produces a code. -/
theorem error_iff_decode_fails_for_small_digits_witness :
    generateTOTP "1" .sha1 6 59 = ("", some .invalidEncoding) ∧
    (generateTOTP rfcSecret .sha1 6 59).2 = none :=
  ⟨(error_iff_decode_fails_for_small_digits "1" .sha1 6 59 (by norm_num)).1
      (by decide),
   (error_iff_decode_fails_for_small_digits rfcSecret .sha1 6 59
      (by norm_num)).2 rfcKey (by decide)⟩

/-- Claim C1: evaluation of the generator at the three RFC 6238
Appendix B SHA-1 vectors (8 digits).  At 59 s and 1111111111 s the
expected codes `"94287082"` and `"14050471"` are produced, but at
1111111109 s the generator returns `"7081804"`: `strconv.Itoa` drops the
leading zero of the expected `"07081804"`. -/
theorem rfc6238_vectors_as_generated :
    generateTOTP rfcSecret .sha1 8 59 = ("94287082", none) ∧
    generateTOTP rfcSecret .sha1 8 1111111109 = ("7081804", none) ∧
    generateTOTP rfcSecret .sha1 8 1111111111 = ("14050471", none) :=
  ⟨by decide, by decide, by decide⟩

/-- Claim C2: at the RFC vector whose value has a leading zero the code
string has length 7, not the required 8: the output is not left-padded. -/
theorem code_length_at_padding_vector :
    (generateTOTP rfcSecret .sha1 8 1111111109).1.length = 7 := by decide

/-- Counterexample to C4 as stated: digit count 5 is accepted — the call
succeeds with code `"87082"` and no error, instead of failing with
`UnsupportedDigitCount`. -/
theorem digits_five_no_error :
    generateTOTP rfcSecret .sha1 5 59 = ("87082", none) := by decide

/-- Counterexample to C6 as stated: the pre-epoch time -59 s is accepted —
the call succeeds with code `"94451"` and no error, instead of failing
with `InvalidTime`. -/
theorem negative_time_no_error :
    generateTOTP rfcSecret .sha1 6 (-59) = ("94451", none) := by decide

/-- Counterexample to C7 as stated: the empty secret decodes to zero
bytes and the call succeeds with code `"812658"` and no error, instead of
failing with `EmptySecret`. -/
theorem empty_secret_no_error :
    generateTOTP "" .sha1 6 59 = ("812658", none) := by decide

/-- Counterexample to C9 as stated: with digit count 64 the secret
decodes fine, yet the call does not succeed: `10 ^ 64` wraps to zero in
64-bit arithmetic and `truncatedHash % divisor` divides by zero. -/
theorem digits_sixtyfour_divide_by_zero :
    DecodeBase32 rfcSecret ≠ none ∧
    (generateTOTP rfcSecret .sha1 64 59).2 = some .divideByZero :=
  ⟨by decide, by decide⟩

end Totp
